import Mathlib

/-
Verification of the sysinval stressor core (src/stress-sysinval.c).

The development shallowly embeds the data model and the operations of the
invalid-syscall fuzzer: the (syscall, args) hash, the deduplication hash
table, the recursive argument-permutation engine `syscall_permute`, the
per-descriptor worker loop body and the supervisor's post-wait recording
step from `stress_do_syscall`, the descriptor shuffle, and the startup
patching of the pointer value tables.  Machine words (`unsigned long`,
64-bit on the targeted platform) are modelled as `Nat` reduced modulo
`2 ^ 64` where overflow matters.  Externally supplied data (the pseudo
random stream, raw syscall results, runtime addresses) is abstracted as an
environment record so the embedded functions stay executable.
-/

namespace Sysinval

/-- Machine word modulus: `unsigned long` is 64 bits wide on the platform
the stressor targets, so word values live in `[0, W)`. -/
def W : Nat := 2 ^ 64

/-- Hash table size, stress-sysinval.c line 29 (`10007`, prime). -/
def SYSCALL_HASH_TABLE_SIZE : Nat := 10007

/-- Outcome tag for the expected behaviour (line 30). -/
def SYSCALL_FAIL : Nat := 0x00

/-- Outcome tag for syscalls that crash the child (line 31). -/
def SYSCALL_CRASH : Nat := 0x01

/-- Outcome tag for syscalls that return 0 (line 32). -/
def SYSCALL_ERRNO_ZERO : Nat := 0x02

/-- Per-descriptor crash cap, line 34. -/
def MAX_CRASHES : Nat := 10

/-- Argument type bitmasks, stress-sysinval.c lines 46-73. -/
def ARG_NONE : Nat := 0x00000000

def ARG_PTR : Nat := 0x00000001

def ARG_INT : Nat := 0x00000002

def ARG_UINT : Nat := 0x00000004

def ARG_SOCKFD : Nat := 0x00000010

def ARG_STRUCT_SOCKADDR : Nat := 0x00000020

def ARG_SOCKLEN_T : Nat := 0x00000040

def ARG_FLAG : Nat := 0x00000080

def ARG_BRK_ADDR : Nat := 0x00000100

def ARG_MODE : Nat := 0x00000200

def ARG_LEN : Nat := 0x00000400

def ARG_SECONDS : Nat := 0x00001000

def ARG_BPF_ATTR : Nat := 0x00002000

def ARG_EMPTY_FILENAME : Nat := 0x00004000

def ARG_DEVZERO_FILENAME : Nat := 0x00008000

def ARG_CLOCKID_T : Nat := 0x00010000

def ARG_FUNC_PTR : Nat := 0x00020000

def ARG_FD : Nat := 0x00040000

def ARG_TIMEOUT : Nat := 0x00080000

def ARG_DIRFD : Nat := 0x00100000

def ARG_DEVNULL_FILENAME : Nat := 0x00200000

def ARG_RND : Nat := 0x00400000

def ARG_PID : Nat := 0x00800000

def ARG_NON_NULL_PTR : Nat := 0x01000000

def ARG_NON_ZERO_LEN : Nat := 0x02000000

def ARG_GID : Nat := 0x04000000

def ARG_UID : Nat := 0x08000000

def ARG_FUTEX_PTR : Nat := 0x10000000

/-- The `ROR` macro (lines 78-86): rotate a 64-bit word right by one bit.
`bit0 = (tmp & 1) << 63; tmp >>= 1; tmp |= bit0`. -/
def ror64 (v : Nat) : Nat :=
  let tmp := v % W
  (tmp >>> 1) ||| ((tmp &&& 1) <<< 63)

/-- The `SHR_UL` macro (line 88): shift left, truncated to `unsigned long`. -/
def SHR_UL (v shift : Nat) : Nat := (v <<< shift) % W

/-- `stress_syscall_hash` (lines 1312-1338): start from the syscall number,
and for each of the six argument words rotate twice then xor, finally
reduce modulo the table size. -/
def stress_syscall_hash (syscall : Nat) (args : List Nat) : Nat :=
  let hash0 := syscall % W
  let hash1 := ror64 (ror64 hash0) ^^^ (args.getD 0 0 % W)
  let hash2 := ror64 (ror64 hash1) ^^^ (args.getD 1 0 % W)
  let hash3 := ror64 (ror64 hash2) ^^^ (args.getD 2 0 % W)
  let hash4 := ror64 (ror64 hash3) ^^^ (args.getD 3 0 % W)
  let hash5 := ror64 (ror64 hash4) ^^^ (args.getD 4 0 % W)
  let hash6 := ror64 (ror64 hash5) ^^^ (args.getD 5 0 % W)
  hash6 % SYSCALL_HASH_TABLE_SIZE

/-- Reference fold stated by claim C6 (and spec section 4.4): start from the
syscall number and fold the six argument words in order, each step being two
right-rotations followed by xor, then reduce modulo the bucket count.  This
definition follows the claim's words and is compared against
`stress_syscall_hash`, which is translated from the source. -/
def hash_fold_c6 (syscall : Nat) (args : List Nat) : Nat :=
  (args.foldl (fun h a => ror64 (ror64 h) ^^^ (a % W)) (syscall % W)) %
    SYSCALL_HASH_TABLE_SIZE

/-- Hash table entry `syscall_arg_hash_t` (lines 119-125).  The `next`
pointer is represented by list structure in a bucket chain. -/
structure syscall_arg_hash_t where
  hash : Nat
  syscall : Nat
  args : List Nat
  type : Nat
deriving DecidableEq, Repr

/-- The static `hash_table` (line 135) is a bucket-indexed map to chains. -/
def hash_table_empty : Nat → List syscall_arg_hash_t := fun _ => []

/-- `hash_table_add` (lines 1345-1362): prepend a fresh node to the chain of
the given bucket.  The out-of-memory silent-failure path is not modelled
(allocation is assumed to succeed). -/
def hash_table_add (hash syscall_num : Nat) (args : List Nat) (type : Nat)
    (t : Nat → List syscall_arg_hash_t) : Nat → List syscall_arg_hash_t :=
  fun k => if k = hash then ⟨hash, syscall_num, args, type⟩ :: t k else t k

/-- The lookup loop inlined at the permutation leaf (lines 1411-1428): walk
the chain and return the first entry whose six argument words `memcmp`-equal
the current call's.  Note the source compares only `h->args`; the stored
syscall number is not compared. -/
def hash_table_lookup : List syscall_arg_hash_t → List Nat →
    Option syscall_arg_hash_t
  | [], _ => none
  | h :: t, a => if h.args = a then some h else hash_table_lookup t a

/-- `hash_table_free` (lines 1368-1383): for every bucket of the table, walk
the chain freeing each node and set the bucket to NULL.  The observable
effect on the table is that every bucket in range becomes empty, whatever
the `type` of the entries it held. -/
def hash_table_free (t : Nat → List syscall_arg_hash_t) :
    Nat → List syscall_arg_hash_t :=
  fun i => if i < SYSCALL_HASH_TABLE_SIZE then [] else t i

/-- Syscall descriptor `syscall_arg_t` (lines 94-99). -/
structure syscall_arg_t where
  syscall : Nat
  name : String
  num_args : Nat
  args : List Nat
deriving Repr

/-- The mutable global value arrays (lines 1247-1270).  They are collected
in one record because several of them are patched at startup. -/
structure ValueTables where
  none_values : List Nat
  mode_values : List Nat
  sockfds : List Nat
  fds : List Nat
  dirfds : List Nat
  clockids : List Nat
  sockaddrs : List Nat
  brk_addrs : List Nat
  empty_filenames : List Nat
  zero_filenames : List Nat
  null_filenames : List Nat
  flags : List Nat
  lengths : List Nat
  ints : List Nat
  uints : List Nat
  func_ptrs : List Nat
  ptrs : List Nat
  futex_ptrs : List Nat
  non_null_ptrs : List Nat
  socklens : List Nat
  timeouts : List Nat
  pids : List Nat
  gids : List Nat
  uids : List Nat
deriving Repr

/-- `INT_MAX` as an unsigned long bit pattern. -/
def INT_MAX : Nat := 2147483647

/-- `(long)INT_MIN` sign-extended to an unsigned long bit pattern. -/
def INT_MIN_UL : Nat := W - 2147483648

/-- `AT_FDCWD` (-100) as an unsigned long bit pattern. -/
def AT_FDCWD_UL : Nat := W - 100

/-- Initial contents of the value arrays (lines 1247-1270), with negative C
values written as their 64-bit unsigned patterns.  Addresses that only exist
at run time are parameters: `emptyS`, `zeroS`, `nullS` are the addresses of
the `""`, `"/dev/zero"` and `"/dev/null"` string literals, `funcExit` is the
address of `func_exit`.  The `pids`, `gids` and `uids` arrays are declared
with 32-bit element types but read through an `unsigned long *` cast by
`ARG_VALUE`; the words actually seen through that reinterpretation are
platform dependent and are passed in as `pidsW`, `gidsW`, `uidsW`. -/
def initTables (emptyS zeroS nullS funcExit : Nat)
    (pidsW gidsW uidsW : List Nat) : ValueTables where
  none_values := [0]
  mode_values := [W - 1, INT_MAX, INT_MIN_UL, W - 1, 1 <<< 20]
  sockfds := [0, 0, W - 1, INT_MAX, INT_MIN_UL, W - 1]
  fds := [W - 1, INT_MAX, INT_MIN_UL, W - 1]
  dirfds := [W - 1, AT_FDCWD_UL, INT_MIN_UL, W - 1]
  clockids := [W - 1, INT_MAX, INT_MIN_UL, W - 1, SHR_UL 0xfe23 18]
  sockaddrs := [0, 0, 0, W - 1, INT_MAX, INT_MIN_UL]
  brk_addrs := [0, W - 1, INT_MAX, INT_MIN_UL, W - 1, 4096]
  empty_filenames := [emptyS, 0]
  zero_filenames := [zeroS]
  null_filenames := [nullS]
  flags := [W - 1, W - 2, INT_MIN_UL, SHR_UL 0xffff 20]
  lengths := [W - 1, W - 2, INT_MIN_UL, INT_MAX, W - 1, W - SHR_UL 1 31]
  ints := [0, W - 1, W - 2, INT_MIN_UL, INT_MAX, SHR_UL 0xff 30, SHR_UL 1 30,
    W - SHR_UL 0xff 30, W - SHR_UL 1 30]
  uints := [INT_MAX, SHR_UL 0xff 30, W - SHR_UL 0xff 30, W - 1]
  func_ptrs := [funcExit]
  ptrs := [0, 0, 0, W - 1, INT_MAX, INT_MIN_UL, W - 4097]
  futex_ptrs := [0, 0]
  non_null_ptrs := [0, 0, W - 1, INT_MAX, INT_MIN_UL, W - 4097]
  socklens := [0, W - 1, INT_MAX, INT_MIN_UL, 8192]
  timeouts := [0]
  pids := pidsW
  gids := gidsW
  uids := uidsW

/-- The `arg_values` array (lines 1275-1299): mapping from argument type
masks to value arrays, in declaration order. -/
def arg_values (t : ValueTables) : List (Nat × List Nat) :=
  [ (ARG_MODE, t.mode_values),
    (ARG_SOCKFD, t.sockfds),
    (ARG_FD, t.fds),
    (ARG_DIRFD, t.dirfds),
    (ARG_CLOCKID_T, t.clockids),
    (ARG_PID, t.pids),
    (ARG_PTR ||| ARG_STRUCT_SOCKADDR, t.sockaddrs),
    (ARG_BRK_ADDR, t.brk_addrs),
    (ARG_EMPTY_FILENAME, t.empty_filenames),
    (ARG_DEVZERO_FILENAME, t.zero_filenames),
    (ARG_DEVNULL_FILENAME, t.null_filenames),
    (ARG_FLAG, t.flags),
    (ARG_SOCKLEN_T, t.socklens),
    (ARG_TIMEOUT, t.timeouts),
    (ARG_LEN, t.lengths),
    (ARG_GID, t.gids),
    (ARG_UID, t.uids),
    (ARG_INT, t.ints),
    (ARG_UINT, t.uints),
    (ARG_FUNC_PTR, t.func_ptrs),
    (ARG_NON_NULL_PTR, t.non_null_ptrs),
    (ARG_FUTEX_PTR, t.futex_ptrs),
    (ARG_PTR, t.ptrs) ]

/-- Startup patching of the pointer value tables (lines 1693-1700):
`sockaddrs[0..1]`, `ptrs[0..1]`, `non_null_ptrs[0..1]` and
`futex_ptrs[0..1]` receive `small_ptr + page_size - 1` and `page_ptr`.
No other value array is written there. -/
def startup_patch_ptrs (small_ptr page_ptr page_size : Nat)
    (t : ValueTables) : ValueTables :=
  { t with
    sockaddrs := ((t.sockaddrs.set 0 ((small_ptr + page_size - 1) % W)).set 1
      (page_ptr % W)),
    ptrs := ((t.ptrs.set 0 ((small_ptr + page_size - 1) % W)).set 1
      (page_ptr % W)),
    non_null_ptrs := ((t.non_null_ptrs.set 0
      ((small_ptr + page_size - 1) % W)).set 1 (page_ptr % W)),
    futex_ptrs := ((t.futex_ptrs.set 0 ((small_ptr + page_size - 1) % W)).set 1
      (page_ptr % W)) }

/-- The shared witness record `syscall_current_context_t` (lines 1223-1235).
`crash_count` is indexed by descriptor table index. -/
structure syscall_current_context_t where
  hash : Nat
  syscall : Nat
  type : Nat
  name : String
  idx : Nat
  counter : Int
  skip_crashed : Nat
  skip_errno_zero : Nat
  crash_count : Nat → Nat
  args : List Nat

/-- Ghost record of one raw syscall invocation performed at a permutation
leaf: the witness contents at the instant of the `syscall(...)` call
(`atCall`), together with the counter and argument words read just before
the leaf updated the witness, the syscall number and the result. -/
structure inv_event_t where
  preCounter : Int
  preArgs : List Nat
  atCall : syscall_current_context_t
  sc : Nat
  ret : Int

/-- Program state threaded through the embedded engine: the shared witness,
the hash table, the position in the pseudo-random stream, and ghost traces
of the raw invocations performed and the diagnostics logged. -/
structure PState where
  ctx : syscall_current_context_t
  table : Nat → List syscall_arg_hash_t
  rnd : Nat
  invocations : List inv_event_t
  diags : List (Nat × Nat)

/-- External environment: pseudo-random stream (`stress_mwc64`/`stress_mwc32`
draws indexed by position), the Arena addresses `small_ptr` and `page_ptr`,
the kernel's response to a raw syscall (the `int` result of `syscall(...)`),
whether `setitimer` succeeds, and the global value tables. -/
structure Env where
  rng : Nat → Nat
  small_ptr : Nat
  page_ptr : Nat
  sys : Nat → List Nat → Int
  itimerOk : Bool
  tables : ValueTables

/-- Value selection for one argument position (lines 1451-1487): the
`switch (arg)` choosing the candidate value list.  `ARG_NONE` selects
`none_values`; `ARG_RND` draws a 64-bit random, a shifted 32-bit random and
the two Arena pointers; any other tag scans `arg_values` in declaration
order for the first entry whose mask bits are all contained in the tag
(`ARG_MASK`, line 27).  The empty list encodes `num_values == 0`.  The
second component is the new pseudo-random stream position. -/
def chooseValues (env : Env) (tag : Nat) (r : Nat) : List Nat × Nat :=
  if tag = ARG_NONE then
    (env.tables.none_values, r)
  else if tag = ARG_RND then
    ([env.rng r % W, SHR_UL (env.rng (r + 1) % 2 ^ 32) 20,
      env.small_ptr % W, env.page_ptr % W], r + 2)
  else
    match (arg_values env.tables).find? (fun pr => tag &&& pr.1 == pr.1) with
    | some pr => (pr.2, r)
    | none => ([], r)

/-- The `arg_num >= syscall_arg->num_args` leaf of `syscall_permute`
(lines 1407-1448): hash the call, walk the bucket chain; on a match bump
the matching skip counter and return.  Otherwise bump the invocation
counter, publish hash and provisional CRASH outcome in the witness, issue
the raw syscall, cache a zero return in the hash table, and finally demote
the witness type to FAIL. -/
def syscall_leaf (env : Env) (syscall_num : Nat) (st : PState) : PState :=
  let hash := stress_syscall_hash syscall_num st.ctx.args
  match hash_table_lookup (st.table hash) st.ctx.args with
  | some h =>
    if h.type = SYSCALL_CRASH then
      { st with ctx := { st.ctx with skip_crashed := st.ctx.skip_crashed + 1 } }
    else if h.type = SYSCALL_ERRNO_ZERO then
      { st with ctx :=
          { st.ctx with skip_errno_zero := st.ctx.skip_errno_zero + 1 } }
    else
      st
  | none =>
    let ctx1 := { st.ctx with
      counter := st.ctx.counter + 1,
      hash := hash,
      type := SYSCALL_CRASH }
    let ret := env.sys syscall_num ctx1.args
    let table2 :=
      if ret = 0 then
        hash_table_add hash syscall_num ctx1.args SYSCALL_ERRNO_ZERO st.table
      else
        st.table
    { st with
      ctx := { ctx1 with type := SYSCALL_FAIL },
      table := table2,
      invocations :=
        st.invocations ++ [⟨st.ctx.counter, st.ctx.args, ctx1, syscall_num, ret⟩] }

/-- Write a value into `witness.args[arg_num]`
(`current_context->args[arg_num] = v`). -/
def setArg (argNum v : Nat) (st : PState) : PState :=
  { st with ctx := { st.ctx with args := st.ctx.args.set argNum v } }

/-- Recursive part of `syscall_permute` (lines 1396-1498).  The first list
argument is the remaining argument tags (`syscall_arg->args[arg_num..]` up
to `num_args`); the empty list is the `arg_num >= num_args` leaf.  When the
value selection comes back empty the source logs a diagnostic, zeroes the
argument word and returns without recursing (lines 1483-1487); otherwise
the `for` loop over the values (lines 1493-1497) writes each value into
`witness.args[arg_num]`, recurses on the next position and zeroes the slot
again. -/
def permuteArgs (env : Env) (sc : Nat) : List Nat → Nat → PState → PState
  | [], _, st => syscall_leaf env sc st
  | tag :: rest, argNum, st =>
    let vr := chooseValues env tag st.rnd
    let st0 : PState := { st with rnd := vr.2 }
    if vr.1 = [] then
      { st0 with
        ctx := { st0.ctx with args := st0.ctx.args.set argNum 0 },
        diags := st0.diags ++ [(argNum, tag)] }
    else
      vr.1.foldl
        (fun s v =>
          setArg argNum 0 (permuteArgs env sc rest (argNum + 1)
            (setArg argNum v s)))
        st0

/-- Entry into the permutation engine for one descriptor:
`syscall_permute(args, 0, &syscall_args[j])`. -/
def syscall_permute (env : Env) (sarg : syscall_arg_t) (st : PState) : PState :=
  permuteArgs env sarg.syscall (sarg.args.take sarg.num_args) 0 st

/-- Modelled from the wording of claim C7, for refinement comparison only:
identical to `permuteArgs` except that when no value table matches the tag,
after logging the diagnostic the permutation CONTINUES using zero as that
argument's only value (the source instead returns without recursing). -/
def permuteArgsClaim (env : Env) (sc : Nat) : List Nat → Nat → PState → PState
  | [], _, st => syscall_leaf env sc st
  | tag :: rest, argNum, st =>
    let vr := chooseValues env tag st.rnd
    let st0 : PState := { st with rnd := vr.2 }
    let vals := if vr.1 = [] then [0] else vr.1
    let st1 : PState :=
      if vr.1 = [] then { st0 with diags := st0.diags ++ [(argNum, tag)] }
      else st0
    vals.foldl
      (fun s v =>
        setArg argNum 0 (permuteArgsClaim env sc rest (argNum + 1)
          (setArg argNum v s)))
      st1

/-- Claim C7's reading of the permutation engine, for comparison with
`syscall_permute`. -/
def syscall_permute_claim_c7 (env : Env) (sarg : syscall_arg_t)
    (st : PState) : PState :=
  permuteArgsClaim env sarg.syscall (sarg.args.take sarg.num_args) 0 st

/-- Result of one iteration of the worker's per-descriptor loop:
the new state, whether the `setitimer` call was issued, and whether the
permutation engine was entered. -/
structure desc_step_t where
  st : PState
  timerArmed : Bool
  engineEntered : Bool

/-- One iteration of the worker's descriptor loop in `stress_do_syscall`
(lines 1561-1588), for descriptor index `j = reorder[i]`: zero the witness
args, publish the descriptor's syscall number, index and name, then skip the
whole descriptor when its crash count has reached `MAX_CRASHES` — the skip
happens before the timer is armed and before the engine is entered.
Otherwise arm the 100 ms interval timer (a `setitimer` failure logs and
skips the engine) and run `syscall_permute` from position 0. -/
def worker_desc_step (env : Env) (sargs : List syscall_arg_t) (j : Nat)
    (st : PState) : desc_step_t :=
  let sarg := sargs.getD j ⟨0, "", 0, [0, 0, 0, 0, 0, 0]⟩
  let ctx0 := { st.ctx with
    args := List.replicate 6 0,
    syscall := sarg.syscall,
    idx := j,
    name := sarg.name }
  let st0 : PState := { st with ctx := ctx0 }
  if MAX_CRASHES ≤ ctx0.crash_count j then
    ⟨st0, false, false⟩
  else if env.itimerOk = false then
    ⟨st0, true, false⟩
  else
    ⟨syscall_permute env sarg st0, true, true⟩

/-- The supervisor's post-wait recording step (lines 1605-1627): if the
witness type is still CRASH when the worker is reaped, insert the witness
tuple into the hash table with the CRASH tag and, when the witness index is
in range, increment `crash_count[idx]` — the increment is unconditional,
with no cap. -/
def supervisor_record (nSyscalls : Nat) (st : PState) : PState :=
  if st.ctx.type = SYSCALL_CRASH then
    let table2 :=
      hash_table_add st.ctx.hash st.ctx.syscall st.ctx.args SYSCALL_CRASH
        st.table
    let ctx2 :=
      if st.ctx.idx < nSyscalls then
        { st.ctx with crash_count := fun k =>
            if k = st.ctx.idx then st.ctx.crash_count k + 1
            else st.ctx.crash_count k }
      else
        st.ctx
    { st with table := table2, ctx := ctx2 }
  else
    st

/-- One swap of the shuffle loop body (lines 1552-1557):
`tmp = reorder[i]; reorder[i] = reorder[j]; reorder[j] = tmp`, with the
array contents modelled as a function from positions to stored indices. -/
def swapAt {n : Nat} (r : Fin n → Fin n) (i j : Fin n) : Fin n → Fin n :=
  fun k => if k = i then r j else if k = j then r i else r k

/-- One iteration of the inner shuffle loop (lines 1551-1558): draw
`j = stress_mwc32() % sz` and swap positions `i` and `j`.  The accumulator
carries the array and the pseudo-random stream position. -/
def shuffle_step (rng : Nat → Nat) {n : Nat}
    (acc : (Fin n → Fin n) × Nat) (i : Fin n) : (Fin n → Fin n) × Nat :=
  (swapAt acc.1 i ⟨(rng acc.2 % 2 ^ 32) % n, Nat.mod_lt _ i.pos⟩, acc.2 + 1)

/-- The worker's descriptor-order construction (lines 1541-1559): the
`reorder` array is initialised to the identity (`reorder[i] = i`) and then
shuffled by five stacked passes of pairwise swaps. -/
def stress_shuffle (rng : Nat → Nat) (n : Nat) (t0 : Nat) :
    (Fin n → Fin n) × Nat :=
  (List.range 5).foldl
    (fun acc _ => (List.finRange n).foldl (shuffle_step rng) acc)
    (fun i => i, t0)

/-- Outcome of one `waitpid` attempt: either a reaped child with an exit
status, or a failure with an `errno` value. -/
inductive wait_outcome where
  | exited : Nat → wait_outcome
  | failed : Nat → wait_outcome
deriving DecidableEq, Repr

/-- The `EINTR` errno value. -/
def EINTR : Nat := 4

/-- Modelled from the spec: `shim_waitpid` is stress-ng framework code not
present under src/; the spec says "Wait. On EINTR re-wait; otherwise
interpret exit status", so the wrapper retries the wait while the underlying
`waitpid` fails with `EINTR` and hands any other outcome to the caller.
The argument lists the successive raw `waitpid` outcomes; `none` means the
supply was exhausted while still re-waiting. -/
def shim_waitpid : List wait_outcome → Option wait_outcome
  | [] => none
  | wait_outcome.failed e :: rest =>
    if e = EINTR then shim_waitpid rest else some (wait_outcome.failed e)
  | wait_outcome.exited s :: _ => some (wait_outcome.exited s)

/-- Result of the supervisor's wait step: whether the failure was logged,
whether the salvage `kill(pid, SIGKILL)` was issued, and the status the
supervisor goes on to interpret. -/
structure wait_step_t where
  logged : Bool
  sigkilled : Bool
  status : Option wait_outcome
deriving DecidableEq, Repr

/-- The supervisor's wait step (lines 1596-1604): call `shim_waitpid`; when
it reports a failure, log it only if `errno != EINTR`, then send `SIGKILL`
and reap once more as a salvage step.  `primary` and `salvage` list the raw
outcomes of the first and the salvage wait. -/
def supervisor_wait (primary salvage : List wait_outcome) : wait_step_t :=
  match shim_waitpid primary with
  | some (wait_outcome.exited s) => ⟨false, false, some (wait_outcome.exited s)⟩
  | some (wait_outcome.failed e) => ⟨e != EINTR, true, shim_waitpid salvage⟩
  | none => ⟨false, false, none⟩

/-- The property claim C3 asserts of every raw invocation: at the instant of
the `syscall(...)` call the witness already holds the call's bucket hash,
the incremented invocation counter, the six argument words, and the
provisional CRASH type. -/
def PC3 (ev : inv_event_t) : Prop :=
  ev.atCall.type = SYSCALL_CRASH ∧
  ev.atCall.hash = stress_syscall_hash ev.sc ev.atCall.args ∧
  ev.atCall.counter = ev.preCounter + 1 ∧
  ev.atCall.args = ev.preArgs

/-!  Concrete fixtures used to evaluate the embedded operations at explicit
inputs: a zeroed witness, value tables instantiated with arbitrary concrete
runtime addresses and then startup-patched, and environments whose syscall
oracle always fails (-1) or always succeeds (0). -/

/-- Six zero argument words (the `memset` state of `witness.args`). -/
def argsZ : List Nat := List.replicate 6 0

/-- A zeroed witness record. -/
def ctxZ : syscall_current_context_t :=
  ⟨0, 0, 0, "", 0, 0, 0, 0, fun _ => 0, argsZ⟩

/-- Concrete initial value tables: string-literal addresses 1000-1002,
`func_exit` at 99, arbitrary words for the reinterpreted 32-bit arrays. -/
def tInit9 : ValueTables :=
  initTables 1000 1001 1002 99 [11, 12, 13, 14] [21, 22] [31, 32]

/-- The concrete tables after the startup patch with
`small_ptr = 2^20`, `page_ptr = 2^21`, `page_size = 4096`. -/
def tablesW : ValueTables := startup_patch_ptrs (2 ^ 20) (2 ^ 21) 4096 tInit9

/-- Base state: zeroed witness, empty hash table, empty traces. -/
def stBase : PState := ⟨ctxZ, hash_table_empty, 0, [], []⟩

/-- Environment whose raw syscalls always return -1 (the expected case). -/
def envFail : Env := ⟨fun k => k + 5, 2 ^ 20, 2 ^ 21, fun _ _ => -1, true, tablesW⟩

/-- Environment whose raw syscalls always return 0. -/
def envZero : Env := ⟨fun k => k + 5, 2 ^ 20, 2 ^ 21, fun _ _ => 0, true, tablesW⟩

/-- A syscall number different from 0 that hashes to the same bucket as
syscall 0 with all-zero arguments: `10007 * 4096` rotates right twelve
times to `10007`, which reduces to bucket 0. -/
def scC1 : Nat := 10007 * 4096

/-- Table holding one CRASH entry for `(scC1, argsZ)` in its home bucket. -/
def tC1 : Nat → List syscall_arg_hash_t :=
  hash_table_add (stress_syscall_hash scC1 argsZ) scC1 argsZ SYSCALL_CRASH
    hash_table_empty

/-- State about to execute a leaf for syscall 0 with all-zero args over
`tC1`. -/
def stC1 : PState := { stBase with table := tC1 }

/-- A hash entry with argument words `argsZ`. -/
def eC1 : syscall_arg_hash_t := ⟨0, 7, argsZ, SYSCALL_CRASH⟩

/-- Home bucket of `(123, argsZ)`. -/
def hC2 : Nat := stress_syscall_hash 123 argsZ

/-- Table holding one CRASH entry for `(123, argsZ)`. -/
def tC2 : Nat → List syscall_arg_hash_t :=
  hash_table_add hC2 123 argsZ SYSCALL_CRASH hash_table_empty

/-- First leaf for `(77, argsZ)` under the always-zero oracle: invokes and
records a ZERO-RETURN entry. -/
def runC2a : PState := syscall_leaf envZero 77 stBase

/-- Second leaf for the same tuple: the recorded entry suppresses it. -/
def runC2b : PState := syscall_leaf envZero 77 runC2a

/-- Third leaf after the end-of-pass `hash_table_free`: the entry is gone
and the tuple is invoked again. -/
def runC2c : PState :=
  syscall_leaf envZero 77 { runC2b with table := hash_table_free runC2b.table }

/-- A zero-arity descriptor: its permutation is a single leaf. -/
def sargC3 : syscall_arg_t := ⟨5, "leaf0", 0, [0, 0, 0, 0, 0, 0]⟩

/-- Fallback invocation event for `List.getD`. -/
def devEv : inv_event_t := ⟨0, [], ctxZ, 0, 0⟩

/-- The single invocation event produced by running `sargC3` from the base
state. -/
def evC3 : inv_event_t :=
  (syscall_permute envFail sargC3 stBase).invocations.getD 0 devEv

/-- State of a reaped worker whose witness still reads CRASH at index 0
while `crash_count[0]` already equals `MAX_CRASHES`. -/
def stC4 : PState :=
  { stBase with ctx :=
      { ctxZ with type := SYSCALL_CRASH, crash_count := fun _ => MAX_CRASHES } }

/-- Worker state in which every descriptor has reached the crash cap. -/
def stC5 : PState :=
  { stBase with ctx := { ctxZ with crash_count := fun _ => MAX_CRASHES } }

/-- A one-argument descriptor whose tag (`ARG_SECONDS`) matches no entry of
`arg_values`. -/
def sargC7 : syscall_arg_t := ⟨161, "secs", 1, [ARG_SECONDS, 0, 0, 0, 0, 0]⟩

/-!  Helper lemmas. -/

/-- The head returned by `getD 0` of a non-empty list is a member. -/
theorem mem_getD_zero {α : Type _} (l : List α) (d : α) (h : 0 < l.length) :
    l.getD 0 d ∈ l := by
  cases l with
  | nil => simp at h
  | cons a t => simp [List.getD]

/-- Characterisation of `List.find?`: a found element is at some position,
satisfies the predicate, and every earlier element fails it. -/
theorem find_first_spec {α : Type _} (p : α → Bool) :
    ∀ (l : List α) (x : α), l.find? p = some x →
      p x = true ∧ ∃ k : Nat, l[k]? = some x ∧
        ∀ m : Nat, m < k → ∀ y, l[m]? = some y → p y = false := by
  intro l
  induction l with
  | nil => intro x h; simp [List.find?] at h
  | cons a t ih =>
    intro x h
    by_cases ha : p a
    · rw [List.find?_cons_of_pos _ ha] at h
      obtain rfl : a = x := by simpa using h
      exact ⟨ha, 0, by simp, fun m hm => absurd hm (Nat.not_lt_zero m)⟩
    · rw [List.find?_cons_of_neg _ (by simpa using ha)] at h
      obtain ⟨hpx, k, hk, hbefore⟩ := ih x h
      refine ⟨hpx, k + 1, by simpa using hk, ?_⟩
      intro m hm y hy
      cases m with
      | zero =>
        obtain rfl : a = y := by simpa using hy
        simpa using ha
      | succ m =>
        exact hbefore m (Nat.lt_of_succ_lt_succ hm) y (by simpa using hy)

/-- `syscall_leaf` never touches the per-descriptor crash counters. -/
theorem syscall_leaf_crash_count (env : Env) (sc : Nat) (st : PState) :
    (syscall_leaf env sc st).ctx.crash_count = st.ctx.crash_count := by
  simp only [syscall_leaf]
  split
  · split
    · rfl
    · split
      · rfl
      · rfl
  · rfl

/-- `syscall_leaf` preserves the C3 property of the invocation trace: the
single event it can append snapshots the witness as updated just before the
raw syscall. -/
theorem syscall_leaf_pc3 (env : Env) (sc : Nat) (st : PState)
    (h : ∀ ev ∈ st.invocations, PC3 ev) :
    ∀ ev ∈ (syscall_leaf env sc st).invocations, PC3 ev := by
  intro ev hev
  simp only [syscall_leaf] at hev
  split at hev
  · split at hev
    · exact h ev hev
    · split at hev
      · exact h ev hev
      · exact h ev hev
  · rcases List.mem_append.1 hev with h1 | h2
    · exact h ev h1
    · obtain rfl := List.mem_singleton.1 h2
      exact ⟨rfl, rfl, rfl, rfl⟩

/-- When the bucket chain holds an entry whose argument words equal the
current call's, the leaf performs no raw invocation, and when that entry is
tagged CRASH it bumps `skip_crashed` by one. -/
theorem syscall_leaf_skip (env : Env) (sc : Nat) (st : PState)
    (e : syscall_arg_hash_t)
    (hl : hash_table_lookup (st.table (stress_syscall_hash sc st.ctx.args))
      st.ctx.args = some e) :
    (syscall_leaf env sc st).invocations = st.invocations ∧
    (e.type = SYSCALL_CRASH →
      (syscall_leaf env sc st).ctx.skip_crashed = st.ctx.skip_crashed + 1) := by
  simp only [syscall_leaf, hl]
  split_ifs with h1 h2
  · exact ⟨rfl, fun _ => rfl⟩
  · exact ⟨rfl, fun hcc => absurd hcc h1⟩
  · exact ⟨rfl, fun hcc => absurd hcc h1⟩

/-- Preservation of a state property through one value loop of the
permutation engine, given preservation through the recursive call and
through argument-slot writes. -/
theorem permuteFold_pres (Q : PState → Prop) (env : Env) (sc : Nat)
    (rest : List Nat) (argNum : Nat)
    (hrec : ∀ (argNum2 : Nat) (st : PState), Q st →
      Q (permuteArgs env sc rest argNum2 st))
    (hset : ∀ (st : PState) (n v : Nat), Q st → Q (setArg n v st)) :
    ∀ (vals : List Nat) (st : PState), Q st →
      Q (vals.foldl
        (fun s v =>
          setArg argNum 0 (permuteArgs env sc rest (argNum + 1)
            (setArg argNum v s)))
        st) := by
  intro vals
  induction vals with
  | nil => intro st h; simpa using h
  | cons v vs ih =>
    intro st h
    simp only [List.foldl_cons]
    exact ih _ (hset _ _ _ (hrec _ _ (hset _ _ _ h)))

/-- Preservation of a state property through the permutation engine, given
preservation through the leaf, argument-slot writes, random-position
updates and diagnostic appends. -/
theorem permuteArgs_pres (Q : PState → Prop) (env : Env) (sc : Nat)
    (hleaf : ∀ st : PState, Q st → Q (syscall_leaf env sc st))
    (hset : ∀ (st : PState) (n v : Nat), Q st → Q (setArg n v st))
    (hrnd : ∀ (st : PState) (r : Nat), Q st → Q { st with rnd := r })
    (hdiag : ∀ (st : PState) (d : Nat × Nat), Q st →
      Q { st with diags := st.diags ++ [d] }) :
    ∀ (l : List Nat) (argNum : Nat) (st : PState), Q st →
      Q (permuteArgs env sc l argNum st) := by
  intro l
  induction l with
  | nil => intro argNum st h; simpa only [permuteArgs] using hleaf st h
  | cons tag rest ih =>
    intro argNum st h
    simp only [permuteArgs]
    split
    · have hstep1 := hrnd st (chooseValues env tag st.rnd).2 h
      have hstep2 := hset _ argNum 0 hstep1
      exact hdiag _ (argNum, tag) hstep2
    · exact permuteFold_pres Q env sc rest argNum ih hset _ _
        (hrnd st (chooseValues env tag st.rnd).2 h)

/-- The permutation engine never touches the per-descriptor crash
counters. -/
theorem permuteArgs_crash_count (env : Env) (sc : Nat) (l : List Nat)
    (argNum : Nat) (st : PState) :
    (permuteArgs env sc l argNum st).ctx.crash_count = st.ctx.crash_count :=
  permuteArgs_pres (fun s => s.ctx.crash_count = st.ctx.crash_count) env sc
    (fun s hs => by
      show (syscall_leaf env sc s).ctx.crash_count = st.ctx.crash_count
      rw [syscall_leaf_crash_count]; exact hs)
    (fun s n v hs => hs) (fun s r hs => hs) (fun s d hs => hs) l argNum st rfl

/-- `syscall_permute` never touches the per-descriptor crash counters. -/
theorem syscall_permute_crash_count (env : Env) (sarg : syscall_arg_t)
    (st : PState) :
    (syscall_permute env sarg st).ctx.crash_count = st.ctx.crash_count :=
  permuteArgs_crash_count env sarg.syscall (sarg.args.take sarg.num_args) 0 st

/-!  Claim theorems. -/

/-- Claim C6 (confirmed): for every syscall number and every six argument
words, `stress_syscall_hash` equals the reference fold — start from the
syscall number, then for each argument word in order apply two right
rotations followed by xor, and reduce modulo 10007 — and its result is
always a bucket index below `SYSCALL_HASH_TABLE_SIZE`. -/
theorem C6_hash_fold :
    (∀ s a0 a1 a2 a3 a4 a5 : Nat,
        stress_syscall_hash s [a0, a1, a2, a3, a4, a5] =
          hash_fold_c6 s [a0, a1, a2, a3, a4, a5]) ∧
    (∀ (s : Nat) (args : List Nat),
        stress_syscall_hash s args < SYSCALL_HASH_TABLE_SIZE) := by
  constructor
  · intro s a0 a1 a2 a3 a4 a5; rfl
  · intro s args
    show _ % SYSCALL_HASH_TABLE_SIZE < SYSCALL_HASH_TABLE_SIZE
    exact Nat.mod_lt _ (by decide)

/-- Claim C4 counterexample: `supervisor_record` — the supervisor's bump of
`crash_count[witness.idx]` after reaping a crashed worker, lines
1605-1627 — applied to a reaped state whose witness type is CRASH and whose
descriptor is already at `MAX_CRASHES` raises the tally to
`MAX_CRASHES + 1`: the increment is not capped. -/
theorem C4_counterexample :
    stC4.ctx.crash_count 0 = MAX_CRASHES ∧
    (supervisor_record 1 stC4).ctx.crash_count 0 = MAX_CRASHES + 1 :=
  ⟨rfl, rfl⟩

/-- Claim C4 (amended): whenever the reaped worker's witness type is CRASH
and the witness index is in range, the supervisor increments
`crash_count[witness.idx]` by exactly one, unconditionally — there is no
`MAX_CRASHES` cap on the stored tally. -/
theorem C4_uncapped_bump (nS : Nat) (st : PState)
    (h1 : st.ctx.type = SYSCALL_CRASH) (h2 : st.ctx.idx < nS) :
    (supervisor_record nS st).ctx.crash_count st.ctx.idx =
      st.ctx.crash_count st.ctx.idx + 1 := by
  simp [supervisor_record, h1, h2]

/-- Witness for C4_uncapped_bump at the concrete reaped state `stC4`. -/
theorem C4_uncapped_bump_witness :
    (supervisor_record 1 stC4).ctx.crash_count stC4.ctx.idx =
      stC4.ctx.crash_count stC4.ctx.idx + 1 :=
  C4_uncapped_bump 1 stC4 rfl (by decide)

/-- Claim C5 (confirmed): when a descriptor's crash count has reached
`MAX_CRASHES`, the worker's per-descriptor step skips it before issuing
`setitimer` and before entering the permutation engine, performing no raw
invocation; moreover no step of either role ever decreases a crash count,
so the skip persists for the remainder of the run. -/
theorem C5_crash_cap_skip (env : Env) (sargs : List syscall_arg_t) (j : Nat)
    (st : PState) (h : MAX_CRASHES ≤ st.ctx.crash_count j) :
    (worker_desc_step env sargs j st).timerArmed = false ∧
    (worker_desc_step env sargs j st).engineEntered = false ∧
    (worker_desc_step env sargs j st).st.invocations = st.invocations ∧
    (∀ (env2 : Env) (sargs2 : List syscall_arg_t) (j2 : Nat) (st2 : PState)
        (i : Nat), st2.ctx.crash_count i ≤
          (worker_desc_step env2 sargs2 j2 st2).st.ctx.crash_count i) ∧
    (∀ (nS : Nat) (st3 : PState) (i : Nat),
        st3.ctx.crash_count i ≤ (supervisor_record nS st3).ctx.crash_count i) := by
  have hmonoW : ∀ (env2 : Env) (sargs2 : List syscall_arg_t) (j2 : Nat)
      (st2 : PState) (i : Nat), st2.ctx.crash_count i ≤
        (worker_desc_step env2 sargs2 j2 st2).st.ctx.crash_count i := by
    intro env2 sargs2 j2 st2 i
    simp only [worker_desc_step]
    split
    · exact Nat.le_refl _
    · split
      · exact Nat.le_refl _
      · rw [syscall_permute_crash_count]
  have hmonoS : ∀ (nS : Nat) (st3 : PState) (i : Nat),
      st3.ctx.crash_count i ≤ (supervisor_record nS st3).ctx.crash_count i := by
    intro nS st3 i
    simp only [supervisor_record]
    split
    · split
      · by_cases hi : i = st3.ctx.idx
        · simp [hi]
        · simp [hi]
      · exact Nat.le_refl _
    · exact Nat.le_refl _
  refine ⟨?_, ?_, ?_, hmonoW, hmonoS⟩
  · simp [worker_desc_step, h]
  · simp [worker_desc_step, h]
  · simp [worker_desc_step, h]

/-- Witness for C5_crash_cap_skip at a state whose every descriptor is at
the crash cap: the step neither arms the timer nor enters the engine. -/
theorem C5_crash_cap_skip_witness :
    (worker_desc_step envFail [] 0 stC5).timerArmed = false ∧
    (worker_desc_step envFail [] 0 stC5).engineEntered = false :=
  ⟨(C5_crash_cap_skip envFail [] 0 stC5 (by decide)).1,
   (C5_crash_cap_skip envFail [] 0 stC5 (by decide)).2.1⟩

/-- Claim C10 (confirmed): the worker's descriptor order — the identity
array shuffled by the five stacked swap passes of `stress_shuffle` — is a
bijection on descriptor indices for every pseudo-random stream, so every
descriptor index occurs exactly once per full pass over the array. -/
theorem C10_reorder_permutation (rng : Nat → Nat) (n t0 : Nat) :
    Function.Bijective (stress_shuffle rng n t0).1 ∧
    ∀ v : Fin n, ∃! k : Fin n, (stress_shuffle rng n t0).1 k = v := by
  have hswap : ∀ (r : Fin n → Fin n) (i j : Fin n),
      Function.Bijective r → Function.Bijective (swapAt r i j) := by
    intro r i j hr
    have hcomp : swapAt r i j = r ∘ (Equiv.swap i j) := by
      funext k
      simp only [swapAt, Function.comp, Equiv.swap_apply_def]
      by_cases h1 : k = i
      · simp [h1]
      · by_cases h2 : k = j
        · simp only [h1, h2, if_false, if_pos rfl]
          by_cases h3 : j = i <;> simp [h3]
        · simp [h1, h2]
    rw [hcomp]
    exact hr.comp (Equiv.swap i j).bijective
  have hfold : ∀ (l : List (Fin n)) (acc : (Fin n → Fin n) × Nat),
      Function.Bijective acc.1 →
      Function.Bijective (l.foldl (shuffle_step rng) acc).1 := by
    intro l
    induction l with
    | nil => intro acc h; exact h
    | cons a l ih => intro acc h; exact ih _ (hswap _ _ _ h)
  have hmain : Function.Bijective (stress_shuffle rng n t0).1 := by
    have hout : ∀ (l : List Nat) (acc : (Fin n → Fin n) × Nat),
        Function.Bijective acc.1 →
        Function.Bijective
          (l.foldl (fun acc _ => (List.finRange n).foldl (shuffle_step rng) acc)
            acc).1 := by
      intro l
      induction l with
      | nil => intro acc h; exact h
      | cons a l ih => intro acc h; exact ih _ (hfold _ _ h)
    exact hout _ _ Function.bijective_id
  exact ⟨hmain, fun v => hmain.existsUnique v⟩

/-- Claim C1 counterexample: the leaf lookup does NOT require the stored
syscall number to match.  Syscall `scC1 = 10007 * 4096` and syscall `0`
hash, with all-zero arguments, to the same bucket; a CRASH entry stored for
`scC1` is treated as a match for a call of syscall `0` with the same six
argument words — `skip_crashed` is bumped and no invocation happens —
although the entry's syscall number differs from the current call's. -/
theorem C1_counterexample :
    stress_syscall_hash scC1 argsZ = stress_syscall_hash 0 argsZ ∧
    scC1 ≠ 0 ∧
    ((tC1 (stress_syscall_hash 0 argsZ)).map (fun e => e.syscall) = [scC1]) ∧
    (syscall_leaf envFail 0 stC1).ctx.skip_crashed = 1 ∧
    (syscall_leaf envFail 0 stC1).invocations.length = 0 := by decide

/-- Claim C1 (amended): at a permutation leaf a stored entry is treated as
a match if and only if its six argument words equal the current call's;
the stored syscall number is not compared, so an entry in the same bucket
for a different syscall with the same six argument words is also a match.
The lookup returns the first args-matching entry of the chain, returns
`none` exactly when no entry's args match, and any match suppresses the
raw invocation. -/
theorem C1_match_args_only :
    (∀ (chain : List syscall_arg_hash_t) (a : List Nat)
        (e : syscall_arg_hash_t),
        hash_table_lookup chain a = some e → e.args = a ∧ e ∈ chain) ∧
    (∀ (chain : List syscall_arg_hash_t) (a : List Nat),
        hash_table_lookup chain a = none → ∀ e ∈ chain, e.args ≠ a) ∧
    (∀ (env : Env) (sc : Nat) (st : PState) (e : syscall_arg_hash_t),
        hash_table_lookup (st.table (stress_syscall_hash sc st.ctx.args))
          st.ctx.args = some e →
        (syscall_leaf env sc st).invocations = st.invocations) := by
  refine ⟨?_, ?_, ?_⟩
  · intro chain
    induction chain with
    | nil => intro a e h; simp [hash_table_lookup] at h
    | cons hd tl ih =>
      intro a e h
      by_cases hq : hd.args = a
      · simp only [hash_table_lookup, if_pos hq] at h
        obtain rfl := Option.some.inj h
        exact ⟨hq, List.mem_cons_self hd tl⟩
      · simp only [hash_table_lookup, if_neg hq] at h
        obtain ⟨h1, h2⟩ := ih a e h
        exact ⟨h1, List.mem_cons_of_mem hd h2⟩
  · intro chain
    induction chain with
    | nil => intro a _ e he; exact absurd he (List.not_mem_nil e)
    | cons hd tl ih =>
      intro a h e he
      by_cases hq : hd.args = a
      · simp only [hash_table_lookup, if_pos hq] at h
        exact absurd h (Option.some_ne_none hd)
      · simp only [hash_table_lookup, if_neg hq] at h
        rcases List.mem_cons.1 he with rfl | htl
        · exact hq
        · exact ih a h e htl
  · intro env sc st e h
    exact (syscall_leaf_skip env sc st e h).1

/-- Witness for C1_match_args_only: applied to the one-entry chain
`[eC1]` and the all-zero argument words, the lookup's match has equal
argument words and belongs to the chain. -/
theorem C1_match_args_only_witness : eC1.args = argsZ ∧ eC1 ∈ [eC1] :=
  C1_match_args_only.1 [eC1] argsZ eC1 (by decide)

/-- Claim C2 counterexample: `hash_table_free` — the clear the worker runs
between full-catalogue passes — removes CRASH entries as well: the bucket
holding the CRASH entry of `tC2` is empty after the clear.  Consequently a
tuple whose outcome is recorded is re-invoked after the clear: under the
always-zero oracle, the tuple `(77, argsZ)` is invoked once and recorded
(ZERO-RETURN), skipped while the entry exists, and invoked a second time
after `hash_table_free` — two invocations after its first recorded outcome,
within one worker lifetime. -/
theorem C2_counterexample :
    ((tC2 hC2).map (fun e => e.type) = [SYSCALL_CRASH]) ∧
    hash_table_free tC2 hC2 = [] ∧
    runC2a.invocations.length = 1 ∧
    runC2b.invocations.length = 1 ∧
    runC2b.ctx.skip_errno_zero = 1 ∧
    runC2c.invocations.length = 2 := by decide

/-- Claim C2 (amended): while an entry for the current tuple remains in the
table the engine does not re-invoke it (a CRASH entry bumps
`skip_crashed`), so within one pass a recorded tuple is invoked at most
once more; but the clear the worker performs between full-catalogue passes
empties every bucket — removing CRASH entries as well as ZERO-RETURN
entries — so the suppression does not persist into later passes of the
same worker. -/
theorem C2_clear_is_total :
    (∀ (t : Nat → List syscall_arg_hash_t) (i : Nat),
        i < SYSCALL_HASH_TABLE_SIZE → hash_table_free t i = []) ∧
    (∀ (env : Env) (sc : Nat) (st : PState) (e : syscall_arg_hash_t),
        hash_table_lookup (st.table (stress_syscall_hash sc st.ctx.args))
          st.ctx.args = some e →
        (syscall_leaf env sc st).invocations = st.invocations ∧
        (e.type = SYSCALL_CRASH →
          (syscall_leaf env sc st).ctx.skip_crashed =
            st.ctx.skip_crashed + 1)) := by
  constructor
  · intro t i h
    simp [hash_table_free, h]
  · intro env sc st e h
    exact syscall_leaf_skip env sc st e h

/-- Witness for C2_clear_is_total: the clear empties bucket 0 of the
concrete table `tC2`. -/
theorem C2_clear_is_total_witness : hash_table_free tC2 0 = [] :=
  (C2_clear_is_total.1 tC2 0 (by decide))

/-- Claim C3 (confirmed): every raw invocation the permutation engine
performs is snapshotted with the witness as it stood at the instant of the
`syscall(...)` call: type already CRASH, hash equal to the call's bucket,
counter already incremented, the six argument words in place; and the leaf
demotes the witness type to FAIL only on the path where the syscall has
returned. -/
theorem C3_witness_before_syscall (env : Env) (sarg : syscall_arg_t)
    (st : PState) (h : ∀ ev ∈ st.invocations, PC3 ev) :
    (∀ ev ∈ (syscall_permute env sarg st).invocations, PC3 ev) ∧
    (∀ st2 : PState,
        (syscall_leaf env sarg.syscall st2).invocations ≠ st2.invocations →
        (syscall_leaf env sarg.syscall st2).ctx.type = SYSCALL_FAIL) := by
  constructor
  · exact permuteArgs_pres (fun s => ∀ ev ∈ s.invocations, PC3 ev) env
      sarg.syscall (fun s hs => syscall_leaf_pc3 env sarg.syscall s hs)
      (fun s n v hs => hs) (fun s r hs => hs) (fun s d hs => hs)
      (sarg.args.take sarg.num_args) 0 st h
  · intro st2 hne
    simp only [syscall_leaf] at hne ⊢
    split at hne
    · split at hne
      · exact (hne rfl).elim
      · split at hne
        · exact (hne rfl).elim
        · exact (hne rfl).elim
    · rfl

/-- Witness for C3_witness_before_syscall: the single invocation event of a
concrete zero-arity run satisfies the C3 snapshot property. -/
theorem C3_witness_before_syscall_witness : PC3 evC3 :=
  (C3_witness_before_syscall envFail sargC3 stBase
      (fun ev hev => absurd hev (List.not_mem_nil ev))).1 evC3
    (mem_getD_zero _ devEv (by decide))

/-- Claim C7 counterexample: for the one-argument descriptor `sargC7`,
whose tag `ARG_SECONDS` matches no entry of `arg_values`, the source engine
logs the diagnostic and returns WITHOUT invoking the syscall (zero
invocations), whereas the claim's reading — continue the permutation with
zero as the only value — would perform exactly one invocation. -/
theorem C7_counterexample :
    (syscall_permute envFail sargC7 stBase).invocations.length = 0 ∧
    (syscall_permute envFail sargC7 stBase).diags = [(0, ARG_SECONDS)] ∧
    (syscall_permute_claim_c7 envFail sargC7 stBase).invocations.length = 1 := by
  decide

/-- Claim C7 (amended): value selection per argument position: a NONE tag
yields the single value zero (the `none_values` table); a RND tag yields
exactly four values — a fresh 64-bit random, a fresh 32-bit random shifted
left by 20, the small Arena pointer and the guard-page pointer; any other
tag selects the first `arg_values` entry, in declaration order, whose mask
bits are all contained in the tag.  If no entry matches, a diagnostic is
logged, the argument word is set to zero, and the engine returns from this
position without recursing — the syscall is not invoked for that subtree. -/
theorem C7_value_selection (env : Env) :
    (env.tables.none_values = [0] → ∀ r : Nat,
        chooseValues env ARG_NONE r = ([0], r)) ∧
    (∀ r : Nat, chooseValues env ARG_RND r =
        ([env.rng r % W, SHR_UL (env.rng (r + 1) % 2 ^ 32) 20,
          env.small_ptr % W, env.page_ptr % W], r + 2)) ∧
    (∀ (tag r : Nat) (vals : List Nat), tag ≠ ARG_NONE → tag ≠ ARG_RND →
        chooseValues env tag r = (vals, r) → vals ≠ [] →
        ∃ (k : Nat) (mv : Nat × List Nat),
          (arg_values env.tables)[k]? = some mv ∧ vals = mv.2 ∧
          tag &&& mv.1 = mv.1 ∧
          ∀ m : Nat, m < k → ∀ y, (arg_values env.tables)[m]? = some y →
            ¬ tag &&& y.1 = y.1) ∧
    (∀ (sc tag : Nat) (rest : List Nat) (argNum : Nat) (st : PState),
        tag ≠ ARG_NONE → tag ≠ ARG_RND →
        (arg_values env.tables).find? (fun pr => tag &&& pr.1 == pr.1) = none →
        permuteArgs env sc (tag :: rest) argNum st =
          { st with
            ctx := { st.ctx with args := st.ctx.args.set argNum 0 },
            diags := st.diags ++ [(argNum, tag)] }) := by
  refine ⟨?_, ?_, ?_, ?_⟩
  · intro h r
    unfold chooseValues
    rw [if_pos rfl, h]
  · intro r
    unfold chooseValues
    rw [if_neg (by decide), if_pos rfl]
  · intro tag r vals h1 h2 hcv hne
    unfold chooseValues at hcv
    rw [if_neg h1, if_neg h2] at hcv
    rcases hf : (arg_values env.tables).find? (fun pr => tag &&& pr.1 == pr.1)
      with _ | mv
    · rw [hf] at hcv
      exact absurd (congrArg Prod.fst hcv).symm hne
    · rw [hf] at hcv
      have hv : vals = mv.2 := (congrArg Prod.fst hcv).symm
      obtain ⟨hp, k, hk, hbefore⟩ := find_first_spec _ _ _ hf
      refine ⟨k, mv, hk, hv, eq_of_beq hp, ?_⟩
      intro m hm y hy hcontra
      have hfalse := hbefore m hm y hy
      rw [hcontra] at hfalse
      simp at hfalse
  · intro sc tag rest argNum st h1 h2 hf
    have hcv : chooseValues env tag st.rnd = ([], st.rnd) := by
      unfold chooseValues
      rw [if_neg h1, if_neg h2, hf]
    simp only [permuteArgs, hcv]
    rfl

/-- Witness for C7_value_selection: under the concrete startup-patched
tables, value selection for a NONE tag yields the single value zero. -/
theorem C7_value_selection_witness :
    chooseValues envFail ARG_NONE 0 = ([0], 0) :=
  (C7_value_selection envFail).1 rfl 0

/-- Claim C8 (confirmed): re-waiting on EINTR is the wrapper's behaviour —
`shim_waitpid` skips an EINTR failure and re-waits — so a failure it
reports is never EINTR; when the re-wait reaps the child the supervisor
interprets its status with no logging and no SIGKILL; and whenever the
supervisor's salvage SIGKILL is issued the failure was also logged, i.e.
the salvage step happens only for a non-EINTR failure. -/
theorem C8_wait_eintr :
    (∀ rest : List wait_outcome,
        shim_waitpid (wait_outcome.failed EINTR :: rest) = shim_waitpid rest) ∧
    (∀ (l : List wait_outcome) (e : Nat),
        shim_waitpid l = some (wait_outcome.failed e) → e ≠ EINTR) ∧
    (∀ (rest salvage : List wait_outcome) (s : Nat),
        shim_waitpid rest = some (wait_outcome.exited s) →
        supervisor_wait (wait_outcome.failed EINTR :: rest) salvage =
          ⟨false, false, some (wait_outcome.exited s)⟩) ∧
    (∀ primary salvage : List wait_outcome,
        (supervisor_wait primary salvage).sigkilled = true →
        (supervisor_wait primary salvage).logged = true) := by
  have hno : ∀ (l : List wait_outcome) (e : Nat),
      shim_waitpid l = some (wait_outcome.failed e) → e ≠ EINTR := by
    intro l
    induction l with
    | nil => intro e h; simp [shim_waitpid] at h
    | cons a t ih =>
      intro e h
      cases a with
      | exited s => simp [shim_waitpid] at h
      | failed e0 =>
        simp only [shim_waitpid] at h
        by_cases he : e0 = EINTR
        · rw [if_pos he] at h
          exact ih e h
        · rw [if_neg he] at h
          simp only [Option.some.injEq, wait_outcome.failed.injEq] at h
          exact h ▸ he
  refine ⟨?_, hno, ?_, ?_⟩
  · intro rest
    simp [shim_waitpid]
  · intro rest salvage s h
    simp [supervisor_wait, shim_waitpid, h]
  · intro primary salvage hk
    unfold supervisor_wait at hk ⊢
    rcases hw : shim_waitpid primary with _ | o
    · simp only [hw] at hk
      exact Bool.noConfusion hk
    · cases o with
      | exited s =>
        simp only [hw] at hk
        exact Bool.noConfusion hk
      | failed e =>
        simp only [hw] at hk ⊢
        have hne := hno primary e hw
        simpa [bne_iff_ne] using hne

/-- Witness for C8_wait_eintr: a first wait failing with a non-EINTR errno
leads to a logged salvage. -/
theorem C8_wait_eintr_witness :
    (supervisor_wait [wait_outcome.failed 5] []).logged = true :=
  C8_wait_eintr.2.2.2 [wait_outcome.failed 5] [] (by decide)

/-- Claim C9 counterexample: the startup patch writes the Arena addresses
into the first two slots of `sockaddrs`, `ptrs`, `non_null_ptrs` and
`futex_ptrs` only.  The FUNC-pointer value table — a pointer-category
table per the spec's own category list — is left untouched: with concrete
Arena addresses `2^20`/`2^21` it still holds only the `func_exit` address
99, and the guard-page address does not appear in it. -/
theorem C9_counterexample :
    tablesW.func_ptrs = [99] ∧
    ((2 ^ 21 : Nat) % W) ∉ tablesW.func_ptrs ∧
    tablesW.ptrs.take 2 = [(2 ^ 20 + 4096 - 1) % W, (2 ^ 21) % W] ∧
    tablesW.futex_ptrs = [(2 ^ 20 + 4096 - 1) % W, (2 ^ 21) % W] := by decide

/-- Claim C9 (amended): at startup the two Arena addresses —
`small_ptr + page_size - 1` and `page_ptr` — are written into the first two
slots of exactly four value tables: `sockaddrs`, `ptrs`, `non_null_ptrs`
and `futex_ptrs`; the FUNC-pointer table `func_ptrs` and the BRK-address
table keep their original contents. -/
theorem C9_patch_tables (sp pp ps : Nat) (t : ValueTables)
    (a1 b1 : Nat) (r1 : List Nat) (h1 : t.sockaddrs = a1 :: b1 :: r1)
    (a2 b2 : Nat) (r2 : List Nat) (h2 : t.ptrs = a2 :: b2 :: r2)
    (a3 b3 : Nat) (r3 : List Nat) (h3 : t.non_null_ptrs = a3 :: b3 :: r3)
    (a4 b4 : Nat) (r4 : List Nat) (h4 : t.futex_ptrs = a4 :: b4 :: r4) :
    (startup_patch_ptrs sp pp ps t).sockaddrs =
      ((sp + ps - 1) % W) :: (pp % W) :: r1 ∧
    (startup_patch_ptrs sp pp ps t).ptrs =
      ((sp + ps - 1) % W) :: (pp % W) :: r2 ∧
    (startup_patch_ptrs sp pp ps t).non_null_ptrs =
      ((sp + ps - 1) % W) :: (pp % W) :: r3 ∧
    (startup_patch_ptrs sp pp ps t).futex_ptrs =
      ((sp + ps - 1) % W) :: (pp % W) :: r4 ∧
    (startup_patch_ptrs sp pp ps t).func_ptrs = t.func_ptrs ∧
    (startup_patch_ptrs sp pp ps t).brk_addrs = t.brk_addrs := by
  simp [startup_patch_ptrs, h1, h2, h3, h4]

/-- Witness for C9_patch_tables at the concrete initial tables. -/
theorem C9_patch_tables_witness :
    (startup_patch_ptrs (2 ^ 20) (2 ^ 21) 4096 tInit9).func_ptrs =
      tInit9.func_ptrs :=
  (C9_patch_tables (2 ^ 20) (2 ^ 21) 4096 tInit9
    0 0 [0, W - 1, INT_MAX, INT_MIN_UL] rfl
    0 0 [0, W - 1, INT_MAX, INT_MIN_UL, W - 4097] rfl
    0 0 [W - 1, INT_MAX, INT_MIN_UL, W - 4097] rfl
    0 0 [] rfl).2.2.2.2.1

end Sysinval
